import Mathlib

/-!
Shallow embedding of `src/main.py` (voice-memo → calendar-event pipeline).

External collaborators (the `dateparser` library, `datetime.isoformat`,
the Google Calendar HTTP API, AssemblyAI transcription, standard input)
are modelled as explicit parameters or as explicit data (response lists,
success flags); everything else is translated statement-by-statement from
the Python source.
-/

/-- Python whitespace as used by `str.strip()`. -/
def pySpace (c : Char) : Bool :=
  c = ' ' || c = '\t' || c = '\n' || c = '\r' || c = '\x0b' || c = '\x0c'

/-- Model of Python `str.strip()`: drop leading and trailing whitespace. -/
def pyStrip (s : String) : String :=
  ⟨((s.data.dropWhile pySpace).reverse.dropWhile pySpace).reverse⟩

/-- Split a character list at every comma, no collapsing of adjacent
separators (the accumulator holds the current chunk reversed). -/
def splitCommaAux : List Char → List Char → List String
  | [], acc => [⟨acc.reverse⟩]
  | c :: cs, acc =>
      if c = ',' then ⟨acc.reverse⟩ :: splitCommaAux cs []
      else splitCommaAux cs (c :: acc)

/-- Model of Python `str.split(",")`: split at every comma, keeping empty
chunks (in particular `"".split(",") = [""]`). -/
def pySplitComma (s : String) : List String := splitCommaAux s.data []

/-- Model of Python `"@" in email`: some character is an `@`. -/
def hasAtSign (s : String) : Bool := s.data.any (fun c => c = '@')

/-- `task_details` is a Python dict with string keys and string values;
we model it as an association list with first-match lookup. -/
abbrev TaskDetails := List (String × String)

/-- Dict lookup: `d[k]` / `d.get(k)`. -/
def dlookup : TaskDetails → String → Option String
  | [], _ => none
  | (k, v) :: rest, key => if k = key then some v else dlookup rest key

/-- Dict update `d[k] = v`: replace the first binding or append. -/
def dset : TaskDetails → String → String → TaskDetails
  | [], key, val => [(key, val)]
  | (k, v) :: rest, key, val =>
      if k = key then (key, val) :: rest else (k, v) :: dset rest key val

/-- Python `d.get(k, "")`. -/
def getD (td : TaskDetails) (key : String) : String :=
  (dlookup td key).getD ""

/-- Python truthiness of `field in td and td[field]`: the key is present
with a non-empty value. -/
def truthyAt (td : TaskDetails) (key : String) : Bool :=
  match dlookup td key with
  | some v => v ≠ ""
  | none => false

/-- A fixed-offset timezone object, modelling the tzinfo values produced by
`dateparser` with `RETURN_AS_TIMEZONE_AWARE`; `name` stands for
`str(tzinfo)`. -/
structure TZInfo where
  name : String
  offsetSec : Int
deriving DecidableEq, Repr

/-- A Python `datetime` value: a local wall-clock instant in seconds plus
an optional timezone. -/
structure AwareDT where
  clock : Int
  tzinfo : Option TZInfo
deriving DecidableEq, Repr

/-- The absolute instant a datetime denotes (UTC seconds): wall clock minus
UTC offset; a naive datetime is read at offset 0. -/
def AwareDT.instant (d : AwareDT) : Int :=
  d.clock - (match d.tzinfo with | some t => t.offsetSec | none => 0)

/-- Python `dt + datetime.timedelta(hours=h)`: shift the wall clock,
keep the tzinfo. -/
def addHours (d : AwareDT) (h : Int) : AwareDT :=
  { d with clock := d.clock + h * 3600 }

/-- `str(dt.tzinfo) if dt.tzinfo else 'UTC'`. -/
def tzLabel (d : AwareDT) : String :=
  match d.tzinfo with
  | some t => t.name
  | none => "UTC"

/-- One attendee record `{"email": ...}`. -/
structure Attendee where
  email : String
deriving DecidableEq, Repr

/-- The `start` / `end` sub-dictionaries of the event payload. -/
structure EventTime where
  dateTime : String
  timeZone : String
deriving DecidableEq, Repr

/-- One reminder override record. -/
structure Reminder where
  method : String
  minutes : Int
deriving DecidableEq, Repr

/-- The event payload assembled by `create_calendar_event` and handed to
the calendar-write boundary. `recurrence = none` models the key being
absent from the dict. -/
structure Event where
  summary : String
  description : String
  start : EventTime
  end_ : EventTime
  location : String
  attendees : List Attendee
  remindersUseDefault : Bool
  remindersOverrides : List Reminder
  recurrence : Option (List String)
deriving DecidableEq, Repr

/-- Outcome of one call to `create_calendar_event`. The Python function
catches every exception itself and returns `None` in all cases; the
constructors record which control path was taken.
`noDateTime`: the early `return` at "Event date and time not provided.";
`parseError`: `parse_time` raised and the `except` block printed the error;
`insertError`: the event was built but `events().insert(...)` raised;
`created`: the insert succeeded. -/
inductive CreateResult where
  | noDateTime : CreateResult
  | parseError : CreateResult
  | insertError : AwareDT → AwareDT → Event → CreateResult
  | created : AwareDT → AwareDT → Event → CreateResult
deriving DecidableEq, Repr

/-- The (start, end) datetimes of a successfully built event, if any. -/
def CreateResult.times : CreateResult → Option (AwareDT × AwareDT)
  | .insertError a b _ => some (a, b)
  | .created a b _ => some (a, b)
  | _ => none

/-- The built event payload, if the build reached event construction. -/
def CreateResult.eventOf : CreateResult → Option Event
  | .insertError _ _ e => some e
  | .created _ _ e => some e
  | _ => none

/-- Whether anything was successfully submitted to the calendar. -/
def CreateResult.submitted : CreateResult → Bool
  | .created _ _ _ => true
  | _ => false

/-- Embedding of `create_calendar_event(service, task_details)`.
`parse` models `dateparser.parse(·, RETURN_AS_TIMEZONE_AWARE)` as called
by `parse_time` (`none` = the parse failed and `parse_time` raised);
`iso` models `datetime.isoformat`; `insertOk` models whether the
calendar-write boundary call succeeds. Every statement mirrors the
Python body in order. -/
def create_calendar_event (parse : String → Option AwareDT)
    (iso : AwareDT → String) (insertOk : Bool)
    (task_details : TaskDetails) : CreateResult :=
  let title := (dlookup task_details "task").getD "No Title Provided"
  let date_time_str := (dlookup task_details "date_time").getD ""
  if date_time_str = "" then
    CreateResult.noDateTime
  else
    match parse date_time_str with
    | none => CreateResult.parseError
    | some start_time =>
      let end_time := addHours start_time 1
      let descr0 := getD task_details "description"
      let participants := getD task_details "participants"
      let attendees : List Attendee :=
        if participants ≠ "" then
          ((pySplitComma participants).filter
            (fun e => hasAtSign e)).map (fun e => { email := pyStrip e })
        else []
      let attachments := getD task_details "attachments"
      let descr1 :=
        if attachments ≠ "" then descr0 ++ "\nAttachments/Links: " ++ attachments
        else descr0
      let notes := getD task_details "notes"
      let descr2 :=
        if notes ≠ "" then descr1 ++ "\nNotes: " ++ notes else descr1
      let recurrence := getD task_details "recurrence"
      let recList : Option (List String) :=
        if recurrence ≠ "" then some ["RRULE:FREQ=WEEKLY;COUNT=10"] else none
      let rsvp := getD task_details "rsvp"
      let descr3 :=
        if rsvp ≠ "" then descr2 ++ "\nRSVP: " ++ rsvp else descr2
      let event : Event :=
        { summary := title
          description := descr3
          start := { dateTime := iso start_time, timeZone := tzLabel start_time }
          end_ := { dateTime := iso end_time, timeZone := tzLabel end_time }
          location := getD task_details "location"
          attendees := attendees
          remindersUseDefault := false
          remindersOverrides := [⟨"email", 24 * 60⟩, ⟨"popup", 30⟩]
          recurrence := recList }
      if insertOk then CreateResult.created start_time end_time event
      else CreateResult.insertError start_time end_time event

/-- Case-insensitive character comparison, modelling `re.IGNORECASE`. -/
def ciEq (a b : Char) : Bool := a.toLower = b.toLower

/-- Match a literal pattern fragment case-insensitively against the front
of the input; return the remaining input on success. -/
def ciLit : List Char → List Char → Option (List Char)
  | [], s => some s
  | _ :: _, [] => none
  | p :: ps, c :: cs => if ciEq p c then ciLit ps cs else none

/-- Python `$` without `re.MULTILINE`: matches at end of input or just
before one trailing newline. -/
def atDollar : List Char → Bool
  | [] => true
  | ['\n'] => true
  | _ => false

/-- Lazy matching of `(.+?)(?:\.|$)` with at least one character already
consumed into the group (held reversed in `acc`): at each position first
try the terminator `\.` or `$`, else extend the group by one non-newline
character. Returns the captured group. -/
def grp2Loop : List Char → List Char → Option (List Char)
  | acc, rest =>
    if rest.head? = some '.' then some acc.reverse
    else if atDollar rest then some acc.reverse
    else match rest with
      | [] => none
      | c :: cs => if c = '\n' then none else grp2Loop (c :: acc) cs

/-- Matching of `(.+?)(?:\.|$)` from the start: the group needs at least
one (non-newline) character before the terminator may fire. -/
def lazyGrp2 : List Char → Option (List Char)
  | [] => none
  | c :: cs => if c = '\n' then none else grp2Loop [c] cs

/-- Lazy matching of `(.+?) at (.+?)(?:\.|$)` with at least one character
already consumed into group 1 (held reversed in `acc`): at each position
first try to complete the rest of the pattern (the literal `" at "`
followed by group 2), else extend group 1 by one non-newline character.
Returns (group 1, group 2). -/
def grp1Loop : List Char → List Char → Option (List Char × List Char)
  | acc, rest =>
    match
      (match ciLit " at ".data rest with
       | some r2 =>
         (match lazyGrp2 r2 with
          | some g2 => some (acc.reverse, g2)
          | none => none)
       | none => none)
    with
    | some out => some out
    | none =>
      match rest with
      | [] => none
      | c :: cs => if c = '\n' then none else grp1Loop (c :: acc) cs

/-- Matching of `(.+?) at (.+?)(?:\.|$)` from the start of group 1. -/
def lazyGrp1 : List Char → Option (List Char × List Char)
  | [] => none
  | c :: cs => if c = '\n' then none else grp1Loop [c] cs

/-- Try the full pattern
`(?:schedule|book|arrange) a meeting with (.+?) at (.+?)(?:\.|$)`
anchored at the current position. -/
def matchHere (s : List Char) : Option (List Char × List Char) :=
  match ciLit "schedule a meeting with ".data s with
  | some rest => lazyGrp1 rest
  | none =>
    match ciLit "book a meeting with ".data s with
    | some rest => lazyGrp1 rest
    | none =>
      match ciLit "arrange a meeting with ".data s with
      | some rest => lazyGrp1 rest
      | none => none

/-- Model of `re.search` for the pattern of `extract_task_details`:
try the pattern at each start position, leftmost first. -/
def searchMeeting : List Char → Option (List Char × List Char)
  | [] => none
  | c :: cs =>
    match matchHere (c :: cs) with
    | some r => some r
    | none => searchMeeting cs

/-- Embedding of `extract_task_details(transcript_text)`. `parse` models
`dateparser.parse(·, RETURN_AS_TIMEZONE_AWARE)` used during extraction
(`none` = parse failure, handled by the `if not time_parsed` branch);
`iso` models `datetime.isoformat`. Returns the empty dict on pattern
miss or parse failure, exactly as the source. -/
def extract_task_details (parse : String → Option AwareDT)
    (iso : AwareDT → String) (transcript_text : String) : TaskDetails :=
  match searchMeeting transcript_text.data with
  | none => []
  | some (g1, g2) =>
    let with_whom := pyStrip ⟨g1⟩
    let time_str := pyStrip ⟨g2⟩
    match parse time_str with
    | none => []
    | some time_parsed =>
      [("task", "Meeting with " ++ with_whom),
       ("with_whom", with_whom),
       ("date_time", iso time_parsed)]

/-- The fixed ordered field schedule of `ask_follow_up_questions`:
(field name, mandatory flag), in source order. -/
def requiredFields : List (String × Bool) :=
  [("task", true), ("date_time", true), ("location", false),
   ("description", false), ("participants", false), ("attachments", false),
   ("recurrence", false), ("notes", false), ("rsvp", false)]

/-- The mandatory re-prompt loop: keep reading responses until one strips
to a non-empty string; return it with the unread responses, or `none` if
the response stream runs out (in Python the loop would then block or the
`input()` call would raise, so the function never returns normally). -/
def firstNonEmpty : List String → Option (String × List String)
  | [] => none
  | r :: rs =>
    let s := pyStrip r
    if s = "" then firstNonEmpty rs else some (s, rs)

/-- One iteration of the `for field, details in required_fields.items()`
loop: skip a field that is present and truthy; otherwise consume one
response; store it if non-empty; if empty and mandatory, run the
re-prompt loop. `none` = the response stream ran out before the function
could proceed (no normal return). -/
def processField (key : String) (mandatory : Bool)
    (td : TaskDetails) (responses : List String) :
    Option (TaskDetails × List String) :=
  if truthyAt td key then some (td, responses)
  else
    match responses with
    | [] => none
    | r :: rs =>
      let response := pyStrip r
      if response ≠ "" then some (dset td key response, rs)
      else if mandatory then
        match firstNonEmpty rs with
        | some (v, rest) => some (dset td key v, rest)
        | none => none
      else some (td, rs)

/-- Run the field loop over a schedule, threading the dict and the
response stream. -/
def processFields : List (String × Bool) → TaskDetails → List String →
    Option (TaskDetails × List String)
  | [], td, responses => some (td, responses)
  | (k, m) :: rest, td, responses =>
    match processField k m td responses with
    | none => none
    | some (td2, rs2) => processFields rest td2 rs2

/-- Embedding of `ask_follow_up_questions(task_details)`: the interactive
boundary is modelled by an explicit list of raw `input()` responses.
`some (td, unread)` is a normal return with the completed dict. -/
def ask_follow_up_questions (task_details : TaskDetails)
    (responses : List String) : Option (TaskDetails × List String) :=
  processFields requiredFields task_details responses

/-- The pipeline steps of `main`, named after the functions it calls. -/
inductive Step where
  | transcribing : Step
  | extracting : Step
  | completing : Step
  | building : Step
  | listing : Step
deriving DecidableEq, Repr

/-- Embedding of `main(audio_file_path)` as a trace semantics.
`transcript` models the transcription boundary (`none` = failure);
`parse` and `iso` model `dateparser.parse` / `datetime.isoformat`;
`responses` models standard input; `insertOk` models the calendar-write
boundary. Returns the list of pipeline steps that were entered, in
order, together with the outcome of `create_calendar_event` when it was
reached. `create_calendar_event` catches its own exceptions, so `main`
always goes on to `display_upcoming_events` after it. -/
def mainRun (transcript : Option String) (parse : String → Option AwareDT)
    (iso : AwareDT → String) (responses : List String) (insertOk : Bool) :
    List Step × Option CreateResult :=
  match transcript with
  | none => ([Step.transcribing], none)
  | some transcript_text =>
    match extract_task_details parse iso transcript_text with
    | [] => ([Step.transcribing, Step.extracting], none)
    | td =>
      match ask_follow_up_questions td responses with
      | none => ([Step.transcribing, Step.extracting, Step.completing], none)
      | some (td2, _) =>
        ([Step.transcribing, Step.extracting, Step.completing,
          Step.building, Step.listing],
         some (create_calendar_event parse iso insertOk td2))

/-- The event record assembled by the body of `create_calendar_event`
once `parse_time` has returned `start_time` (same lets, same order). -/
def builtEvent (iso : AwareDT → String) (task_details : TaskDetails)
    (start_time : AwareDT) : Event :=
  let title := (dlookup task_details "task").getD "No Title Provided"
  let end_time := addHours start_time 1
  let descr0 := getD task_details "description"
  let participants := getD task_details "participants"
  let attendees : List Attendee :=
    if participants ≠ "" then
      ((pySplitComma participants).filter
        (fun e => hasAtSign e)).map (fun e => { email := pyStrip e })
    else []
  let attachments := getD task_details "attachments"
  let descr1 :=
    if attachments ≠ "" then descr0 ++ "\nAttachments/Links: " ++ attachments
    else descr0
  let notes := getD task_details "notes"
  let descr2 :=
    if notes ≠ "" then descr1 ++ "\nNotes: " ++ notes else descr1
  let recurrence := getD task_details "recurrence"
  let recList : Option (List String) :=
    if recurrence ≠ "" then some ["RRULE:FREQ=WEEKLY;COUNT=10"] else none
  let rsvp := getD task_details "rsvp"
  let descr3 :=
    if rsvp ≠ "" then descr2 ++ "\nRSVP: " ++ rsvp else descr2
  { summary := title
    description := descr3
    start := { dateTime := iso start_time, timeZone := tzLabel start_time }
    end_ := { dateTime := iso end_time, timeZone := tzLabel end_time }
    location := getD task_details "location"
    attendees := attendees
    remindersUseDefault := false
    remindersOverrides := [⟨"email", 24 * 60⟩, ⟨"popup", 30⟩]
    recurrence := recList }

/-- Claim-side description (spec wording of C3): start from the raw
`description` field (or empty string) and append, in fixed order, the
Attachments/Links line when `attachments` is present and non-empty and
the Notes line when `notes` is present and non-empty — and nothing
else. -/
def specComposedDescription (td : TaskDetails) : String :=
  let base := getD td "description"
  let attachments := getD td "attachments"
  let d1 :=
    if attachments ≠ "" then base ++ "\nAttachments/Links: " ++ attachments
    else base
  let notes := getD td "notes"
  if notes ≠ "" then d1 ++ "\nNotes: " ++ notes else d1

/-- The RSVP tail actually appended by the code after the Attachments and
Notes sections. -/
def rsvpSuffix (td : TaskDetails) : String :=
  if getD td "rsvp" ≠ "" then "\nRSVP: " ++ getD td "rsvp" else ""

/-- Claim-side attendee list (spec wording of C7): split the
`participants` string on commas and keep, in order, the entries
containing an `@`, each as `{email: trimmed entry}`. -/
def specAttendees (participants : String) : List Attendee :=
  ((pySplitComma participants).filter
    (fun e => hasAtSign e)).map (fun e => { email := pyStrip e })

/-- A sample fixed-offset timezone (EST, UTC−5). -/
def estTZ : TZInfo := { name := "EST", offsetSec := -18000 }

/-- A sample timezone-aware datetime. -/
def sampleDT : AwareDT := { clock := 86400, tzinfo := some estTZ }

/-- A parse stub that accepts every string (witness scenarios). -/
def alwaysParse : String → Option AwareDT := fun _ => some sampleDT

/-- An isoformat stub (witness scenarios). -/
def isoStub : AwareDT → String := fun _ => "1970-01-02T00:00:00-05:00"

/-- A parse stub that accepts exactly the extracted time expression
"3pm tomorrow" and rejects everything else, in particular the ISO string
`isoStub` produces — so the second, build-time parse fails. -/
def tomorrowOnlyParse : String → Option AwareDT :=
  fun s => if s = "3pm tomorrow" then some sampleDT else none

/-- Transcript matching the fixed extraction pattern. -/
def sampleTranscript : String := "Schedule a meeting with Alice at 3pm tomorrow."

/-- Seven empty interactive answers: one per optional field when `task`
and `date_time` are already set. -/
def sevenBlanks : List String := ["", "", "", "", "", "", ""]

/-- A complete field mapping exercising every optional field. -/
def tdFull : TaskDetails :=
  [("task", "Team Sync"), ("date_time", "December 7, 2024, 3:00 PM EST"),
   ("location", "HQ"), ("description", "quarterly review"),
   ("participants", "a@x.com, b, c@y.com"), ("attachments", "http://agenda"),
   ("recurrence", "none"), ("notes", "bring laptop"), ("rsvp", "please reply")]

/-- A field mapping whose `rsvp` field is non-empty but whose
`attachments` and `notes` are absent. -/
def tdRsvp : TaskDetails :=
  [("task", "Sync"), ("date_time", "D"), ("description", "d"),
   ("rsvp", "please")]

/-- A field mapping with no `date_time`. -/
def tdNoDT : TaskDetails := [("task", "X")]

lemma dlookup_dset_self (td : TaskDetails) (k v : String) :
    dlookup (dset td k v) k = some v := by
  induction td with
  | nil => simp [dset, dlookup]
  | cons p rest ih =>
    obtain ⟨k', v'⟩ := p
    by_cases h : k' = k
    · simp [dset, h, dlookup]
    · simp [dset, h, dlookup, ih]

lemma dlookup_dset_ne (td : TaskDetails) (k k' v : String) (h : k' ≠ k) :
    dlookup (dset td k v) k' = dlookup td k' := by
  have h' : ¬ k = k' := fun hh => h hh.symm
  induction td with
  | nil => simp [dset, dlookup, h']
  | cons p rest ih =>
    obtain ⟨k0, v0⟩ := p
    by_cases h0 : k0 = k
    · subst h0
      simp [dset, dlookup, h']
    · simp [dset, h0, dlookup, ih]

lemma truthyAt_iff (td : TaskDetails) (k : String) :
    truthyAt td k = true ↔ ∃ v, dlookup td k = some v ∧ v ≠ "" := by
  unfold truthyAt
  cases h : dlookup td k <;> simp

lemma truthyAt_eq_getD (td : TaskDetails) (k : String) :
    truthyAt td k = true ↔ getD td k ≠ "" := by
  unfold truthyAt getD
  cases h : dlookup td k <;> simp

lemma firstNonEmpty_ne (rs : List String) (v : String) (rest : List String)
    (h : firstNonEmpty rs = some (v, rest)) : v ≠ "" := by
  induction rs generalizing rest with
  | nil => simp [firstNonEmpty] at h
  | cons r rs' ih =>
    unfold firstNonEmpty at h
    by_cases hr : pyStrip r = ""
    · simp [hr] at h
      exact ih rest h
    · simp [hr] at h
      rw [← h.1]
      exact hr

lemma processField_shape (key : String) (m : Bool) (td : TaskDetails)
    (rs : List String) (td2 : TaskDetails) (rs2 : List String)
    (h : processField key m td rs = some (td2, rs2)) :
    td2 = td ∨
      ∃ w, w ≠ "" ∧ td2 = dset td key w ∧ truthyAt td key = false := by
  unfold processField at h
  by_cases ht : truthyAt td key
  · simp [ht] at h
    exact Or.inl h.1.symm
  · simp [ht] at h
    cases rs with
    | nil => simp at h
    | cons r rs' =>
      simp at h
      by_cases hr : pyStrip r = ""
      · simp [hr] at h
        cases m with
        | false =>
          simp at h
          exact Or.inl h.1.symm
        | true =>
          simp at h
          cases hf : firstNonEmpty rs' with
          | none => rw [hf] at h; simp at h
          | some p =>
            obtain ⟨w, rest⟩ := p
            rw [hf] at h
            simp at h
            exact Or.inr ⟨w, firstNonEmpty_ne rs' w rest hf, h.1.symm,
              by simpa using ht⟩
      · simp [hr] at h
        exact Or.inr ⟨pyStrip r, hr, h.1.symm, by simpa using ht⟩

lemma processField_preserve (key : String) (m : Bool) (td : TaskDetails)
    (rs : List String) (td2 : TaskDetails) (rs2 : List String)
    (h : processField key m td rs = some (td2, rs2))
    (k v : String) (hk : dlookup td k = some v) (hv : v ≠ "") :
    dlookup td2 k = some v := by
  rcases processField_shape key m td rs td2 rs2 h with heq | ⟨w, _, heq, hf⟩
  · rw [heq]; exact hk
  · by_cases hkk : k = key
    · subst hkk
      have : truthyAt td k = true := (truthyAt_iff td k).mpr ⟨v, hk, hv⟩
      rw [this] at hf
      cases hf
    · rw [heq, dlookup_dset_ne td key k w hkk]
      exact hk

lemma processField_isSome (key : String) (m : Bool) (td : TaskDetails)
    (rs : List String) (td2 : TaskDetails) (rs2 : List String)
    (h : processField key m td rs = some (td2, rs2))
    (k : String) (hk : (dlookup td k).isSome) : (dlookup td2 k).isSome := by
  rcases processField_shape key m td rs td2 rs2 h with heq | ⟨w, _, heq, _⟩
  · rw [heq]; exact hk
  · by_cases hkk : k = key
    · subst hkk
      rw [heq, dlookup_dset_self]
      rfl
    · rw [heq, dlookup_dset_ne td key k w hkk]
      exact hk

lemma processField_mandatory (key : String) (td : TaskDetails)
    (rs : List String) (td2 : TaskDetails) (rs2 : List String)
    (h : processField key true td rs = some (td2, rs2)) :
    ∃ v, dlookup td2 key = some v ∧ v ≠ "" := by
  unfold processField at h
  by_cases ht : truthyAt td key
  · obtain ⟨v, hv, hv2⟩ := (truthyAt_iff td key).mp ht
    simp [ht] at h
    rw [← h.1]
    exact ⟨v, hv, hv2⟩
  · simp [ht] at h
    cases rs with
    | nil => simp at h
    | cons r rs' =>
      simp at h
      by_cases hr : pyStrip r = ""
      · simp [hr] at h
        cases hf : firstNonEmpty rs' with
        | none => rw [hf] at h; simp at h
        | some p =>
          obtain ⟨w, rest⟩ := p
          rw [hf] at h
          simp at h
          rw [← h.1, dlookup_dset_self]
          exact ⟨w, rfl, firstNonEmpty_ne rs' w rest hf⟩
      · simp [hr] at h
        rw [← h.1, dlookup_dset_self]
        exact ⟨pyStrip r, rfl, hr⟩

lemma processFields_preserve (sched : List (String × Bool))
    (td : TaskDetails) (rs : List String) (td2 : TaskDetails)
    (rs2 : List String)
    (h : processFields sched td rs = some (td2, rs2))
    (k v : String) (hk : dlookup td k = some v) (hv : v ≠ "") :
    dlookup td2 k = some v := by
  induction sched generalizing td rs with
  | nil =>
    simp [processFields] at h
    rw [← h.1]
    exact hk
  | cons p rest ih =>
    obtain ⟨key, m⟩ := p
    unfold processFields at h
    cases hp : processField key m td rs with
    | none => rw [hp] at h; simp at h
    | some pr =>
      obtain ⟨td1, rs1⟩ := pr
      rw [hp] at h
      exact ih td1 rs1 h (processField_preserve key m td rs td1 rs1 hp k v hk hv)

lemma processFields_isSome (sched : List (String × Bool))
    (td : TaskDetails) (rs : List String) (td2 : TaskDetails)
    (rs2 : List String)
    (h : processFields sched td rs = some (td2, rs2))
    (k : String) (hk : (dlookup td k).isSome) : (dlookup td2 k).isSome := by
  induction sched generalizing td rs with
  | nil =>
    simp [processFields] at h
    rw [← h.1]
    exact hk
  | cons p rest ih =>
    obtain ⟨key, m⟩ := p
    unfold processFields at h
    cases hp : processField key m td rs with
    | none => rw [hp] at h; simp at h
    | some pr =>
      obtain ⟨td1, rs1⟩ := pr
      rw [hp] at h
      exact ih td1 rs1 h (processField_isSome key m td rs td1 rs1 hp k hk)

lemma processFields_mandatory (sched : List (String × Bool))
    (td : TaskDetails) (rs : List String) (td2 : TaskDetails)
    (rs2 : List String) (key : String)
    (hmem : (key, true) ∈ sched)
    (h : processFields sched td rs = some (td2, rs2)) :
    ∃ v, dlookup td2 key = some v ∧ v ≠ "" := by
  induction sched generalizing td rs with
  | nil => cases hmem
  | cons p rest ih =>
    obtain ⟨k', m'⟩ := p
    unfold processFields at h
    cases hp : processField k' m' td rs with
    | none => rw [hp] at h; simp at h
    | some pr =>
      obtain ⟨td1, rs1⟩ := pr
      rw [hp] at h
      rcases List.mem_cons.mp hmem with heq | hmem'
      · injection heq with hk hm
        subst hk
        subst hm
        obtain ⟨v, hv, hv2⟩ := processField_mandatory key td rs td1 rs1 hp
        exact ⟨v, processFields_preserve rest td1 rs1 td2 rs2 h key v hv hv2,
          hv2⟩
      · exact ih td1 rs1 hmem' h

lemma create_build (parse : String → Option AwareDT) (iso : AwareDT → String)
    (insertOk : Bool) (td : TaskDetails) (st : AwareDT)
    (h2 : getD td "date_time" ≠ "")
    (h3 : parse (getD td "date_time") = some st) :
    create_calendar_event parse iso insertOk td =
      if insertOk then
        CreateResult.created st (addHours st 1) (builtEvent iso td st)
      else
        CreateResult.insertError st (addHours st 1) (builtEvent iso td st) := by
  simp only [getD] at h2 h3
  simp only [create_calendar_event, builtEvent]
  rw [if_neg h2, h3]

lemma create_eventOf_eq (parse : String → Option AwareDT)
    (iso : AwareDT → String) (insertOk : Bool) (td : TaskDetails)
    (st : AwareDT) (h2 : getD td "date_time" ≠ "")
    (h3 : parse (getD td "date_time") = some st) :
    (create_calendar_event parse iso insertOk td).eventOf =
      some (builtEvent iso td st) := by
  rw [create_build parse iso insertOk td st h2 h3]
  cases insertOk <;> rfl

lemma create_times_eq (parse : String → Option AwareDT)
    (iso : AwareDT → String) (insertOk : Bool) (td : TaskDetails)
    (st : AwareDT) (h2 : getD td "date_time" ≠ "")
    (h3 : parse (getD td "date_time") = some st) :
    (create_calendar_event parse iso insertOk td).times =
      some (st, addHours st 1) := by
  rw [create_build parse iso insertOk td st h2 h3]
  cases insertOk <;> rfl

lemma instant_addHours (d : AwareDT) :
    (addHours d 1).instant = d.instant + 3600 := by
  unfold addHours AwareDT.instant
  cases d.tzinfo with
  | none => simp
  | some t =>
    simp only []
    ring

lemma mainRun_snd_some (transcript : Option String)
    (parse : String → Option AwareDT) (iso : AwareDT → String)
    (responses : List String) (insertOk : Bool) (r : CreateResult)
    (h : (mainRun transcript parse iso responses insertOk).2 = some r) :
    (mainRun transcript parse iso responses insertOk).1 =
      [Step.transcribing, Step.extracting, Step.completing,
       Step.building, Step.listing] := by
  cases transcript with
  | none => simp [mainRun] at h
  | some text =>
    simp only [mainRun] at h ⊢
    cases hE : extract_task_details parse iso text with
    | nil => simp [hE] at h
    | cons p ps =>
      simp only [hE] at h ⊢
      cases hA : ask_follow_up_questions (p :: ps) responses with
      | none => simp [hA] at h
      | some pr =>
        obtain ⟨td2, rest⟩ := pr
        simp [hA]

lemma specAttendees_empty : specAttendees "" = [] := rfl

/-- C1: for every field mapping whose `date_time` is present, non-empty
and parseable, the event built by `create_calendar_event` satisfies
`end = start + 1 hour` exactly: the end datetime is the parsed start
shifted by one hour, so the end instant equals the start instant plus
3600 seconds, unconditionally. -/
theorem C1_end_is_start_plus_one_hour (parse : String → Option AwareDT)
    (iso : AwareDT → String) (insertOk : Bool) (td : TaskDetails)
    (st : AwareDT) (h2 : getD td "date_time" ≠ "")
    (h3 : parse (getD td "date_time") = some st) :
    (create_calendar_event parse iso insertOk td).times =
      some (st, addHours st 1) ∧
    (addHours st 1).instant = st.instant + 3600 :=
  ⟨create_times_eq parse iso insertOk td st h2 h3, instant_addHours st⟩

/-- Witness for C1 on a concrete complete field mapping. -/
theorem C1_witness :
    (create_calendar_event alwaysParse isoStub true tdFull).times =
      some (sampleDT, addHours sampleDT 1) ∧
    (addHours sampleDT 1).instant = sampleDT.instant + 3600 :=
  C1_end_is_start_plus_one_hour alwaysParse isoStub true tdFull sampleDT
    (by decide) rfl

/-- C10: for every field mapping whose `date_time` is absent or empty,
`create_calendar_event` returns normally via the early report path,
submits nothing to the calendar-write boundary, and builds no event. -/
theorem C10_missing_date_time (parse : String → Option AwareDT)
    (iso : AwareDT → String) (insertOk : Bool) (td : TaskDetails)
    (h : dlookup td "date_time" = none ∨ dlookup td "date_time" = some "") :
    create_calendar_event parse iso insertOk td = CreateResult.noDateTime ∧
    (create_calendar_event parse iso insertOk td).submitted = false ∧
    (create_calendar_event parse iso insertOk td).eventOf = none := by
  have hg : (dlookup td "date_time").getD "" = "" := by
    rcases h with h | h <;> rw [h] <;> rfl
  have h1 : create_calendar_event parse iso insertOk td =
      CreateResult.noDateTime := by
    simp only [create_calendar_event]
    rw [if_pos hg]
  refine ⟨h1, ?_, ?_⟩ <;> rw [h1] <;> rfl

/-- Witness for C10 on a mapping with no `date_time` key. -/
theorem C10_witness :
    create_calendar_event alwaysParse isoStub true tdNoDT =
        CreateResult.noDateTime ∧
    (create_calendar_event alwaysParse isoStub true tdNoDT).submitted =
        false ∧
    (create_calendar_event alwaysParse isoStub true tdNoDT).eventOf = none :=
  C10_missing_date_time alwaysParse isoStub true tdNoDT (Or.inl (by decide))

/-- C6: for every buildable field mapping, the event carries the
recurrence key with exactly the fixed value
`["RRULE:FREQ=WEEKLY;COUNT=10"]` if the `recurrence` field is present
and non-empty (irrespective of its text), and carries no recurrence key
at all otherwise. -/
theorem C6_recurrence_fixed (parse : String → Option AwareDT)
    (iso : AwareDT → String) (insertOk : Bool) (td : TaskDetails)
    (st : AwareDT) (h2 : getD td "date_time" ≠ "")
    (h3 : parse (getD td "date_time") = some st) :
    (create_calendar_event parse iso insertOk td).eventOf.map
        Event.recurrence =
      some (if truthyAt td "recurrence" = true then
              some ["RRULE:FREQ=WEEKLY;COUNT=10"]
            else none) := by
  rw [create_eventOf_eq parse iso insertOk td st h2 h3]
  have ht := truthyAt_eq_getD td "recurrence"
  by_cases hr : getD td "recurrence" = ""
  · have ht2 : truthyAt td "recurrence" = false := by
      rcases Bool.eq_false_or_eq_true (truthyAt td "recurrence") with h0 | h0
      · exact absurd hr (ht.mp h0)
      · exact h0
    simp [builtEvent, hr, ht2]
  · have ht2 : truthyAt td "recurrence" = true := ht.mpr hr
    simp [builtEvent, hr, ht2]

/-- Witness for C6: `recurrence = "none"` (non-empty text) still yields
the fixed weekly rule. -/
theorem C6_witness :
    (create_calendar_event alwaysParse isoStub true tdFull).eventOf.map
        Event.recurrence =
      some (some ["RRULE:FREQ=WEEKLY;COUNT=10"]) :=
  (C6_recurrence_fixed alwaysParse isoStub true tdFull sampleDT
    (by decide) rfl).trans (by decide)

/-- C7: for every buildable field mapping, the event's attendee list is
the `participants` string split on commas, keeping in order exactly the
entries containing `@`, each mapped to `{email: trimmed entry}`. -/
theorem C7_attendee_filter (parse : String → Option AwareDT)
    (iso : AwareDT → String) (insertOk : Bool) (td : TaskDetails)
    (st : AwareDT) (h2 : getD td "date_time" ≠ "")
    (h3 : parse (getD td "date_time") = some st) :
    (create_calendar_event parse iso insertOk td).eventOf.map
        Event.attendees =
      some (specAttendees (getD td "participants")) := by
  rw [create_eventOf_eq parse iso insertOk td st h2 h3]
  by_cases hp : getD td "participants" = ""
  · rw [hp, specAttendees_empty]
    simp [builtEvent, hp]
  · simp [builtEvent, hp, specAttendees]

/-- Witness for C7 at the spec's example: `"a@x.com, b, c@y.com"` yields
exactly `[{email:"a@x.com"}, {email:"c@y.com"}]`. -/
theorem C7_witness :
    (create_calendar_event alwaysParse isoStub true tdFull).eventOf.map
        Event.attendees =
      some [{ email := "a@x.com" }, { email := "c@y.com" }] :=
  (C7_attendee_filter alwaysParse isoStub true tdFull sampleDT
    (by decide) rfl).trans (by decide)

/-- C9: for every buildable field mapping, a "\nRSVP: <rsvp>" line is
appended to the event description after the Attachments/Links and Notes
sections exactly when the `rsvp` field is present and non-empty; when
`rsvp` is empty or absent the description is just the composed base. -/
theorem C9_rsvp_line (parse : String → Option AwareDT)
    (iso : AwareDT → String) (insertOk : Bool) (td : TaskDetails)
    (st : AwareDT) (h2 : getD td "date_time" ≠ "")
    (h3 : parse (getD td "date_time") = some st) :
    (getD td "rsvp" ≠ "" →
      (create_calendar_event parse iso insertOk td).eventOf.map
          Event.description =
        some (specComposedDescription td ++ "\nRSVP: " ++ getD td "rsvp")) ∧
    (getD td "rsvp" = "" →
      (create_calendar_event parse iso insertOk td).eventOf.map
          Event.description =
        some (specComposedDescription td)) := by
  rw [create_eventOf_eq parse iso insertOk td st h2 h3]
  constructor <;> intro hr <;> simp [builtEvent, specComposedDescription, hr]

/-- Witness for C9 on a mapping with a non-empty `rsvp`. -/
theorem C9_witness :
    (create_calendar_event alwaysParse isoStub true tdRsvp).eventOf.map
        Event.description =
      some "d\nRSVP: please" :=
  ((C9_rsvp_line alwaysParse isoStub true tdRsvp sampleDT (by decide)
      rfl).1 (by decide)).trans (by decide)

/-- C3 counterexample: on a complete field mapping with a non-empty
`rsvp` field, the event description is not just the base description
plus the Attachments/Links and Notes lines — the code also appends an
RSVP line, so the claim's "and nothing else" fails. -/
theorem C3_counterexample :
    (create_calendar_event alwaysParse isoStub true tdRsvp).eventOf.map
        Event.description ≠
      some (specComposedDescription tdRsvp) := by
  decide

/-- C3 (amended): for every buildable field mapping, the event
description is the raw `description` field (or empty string), followed
in fixed order by the Attachments/Links line when `attachments` is
present and non-empty, the Notes line when `notes` is present and
non-empty, and additionally the "\nRSVP: <rsvp>" line when `rsvp` is
present and non-empty — and nothing else. -/
theorem C3_description_composition (parse : String → Option AwareDT)
    (iso : AwareDT → String) (insertOk : Bool) (td : TaskDetails)
    (st : AwareDT) (h2 : getD td "date_time" ≠ "")
    (h3 : parse (getD td "date_time") = some st) :
    (create_calendar_event parse iso insertOk td).eventOf.map
        Event.description =
      some (specComposedDescription td ++ rsvpSuffix td) := by
  rw [create_eventOf_eq parse iso insertOk td st h2 h3]
  by_cases hr : getD td "rsvp" = ""
  · simp [builtEvent, specComposedDescription, rsvpSuffix, hr]
  · simp [builtEvent, specComposedDescription, rsvpSuffix, hr,
      String.append_assoc]

/-- Witness for the amended C3 on a mapping exercising description,
attachments, notes and rsvp together. -/
theorem C3_description_witness :
    (create_calendar_event alwaysParse isoStub true tdFull).eventOf.map
        Event.description =
      some ("quarterly review\nAttachments/Links: http://agenda\nNotes: bring laptop\nRSVP: please reply") :=
  (C3_description_composition alwaysParse isoStub true tdFull sampleDT
    (by decide) rfl).trans (by decide)

/-- C4: whenever the fixed case-insensitive pattern
"(schedule|book|arrange) a meeting with <counterpart> at <time>"
matches the transcript, extraction returns exactly
`task = "Meeting with <counterpart>"`, `with_whom = <counterpart>` and
`date_time` = the ISO representation of the normalized instant when the
time expression parses; it returns the empty mapping when normalization
fails or when the pattern does not match. -/
theorem C4_extraction_spec (parse : String → Option AwareDT)
    (iso : AwareDT → String) (t : String) :
    (∀ g1 g2, searchMeeting t.data = some (g1, g2) →
      (∀ tm, parse (pyStrip ⟨g2⟩) = some tm →
        extract_task_details parse iso t =
          [("task", "Meeting with " ++ pyStrip ⟨g1⟩),
           ("with_whom", pyStrip ⟨g1⟩),
           ("date_time", iso tm)]) ∧
      (parse (pyStrip ⟨g2⟩) = none →
        extract_task_details parse iso t = [])) ∧
    (searchMeeting t.data = none →
      extract_task_details parse iso t = []) := by
  constructor
  · intro g1 g2 hs
    constructor
    · intro tm hp
      simp [extract_task_details, hs, hp]
    · intro hp
      simp [extract_task_details, hs, hp]
  · intro hs
    simp [extract_task_details, hs]

/-- Witness for C4 on the spec's sample transcript, checking the matcher
captures counterpart "Alice" and time "3pm tomorrow". -/
theorem C4_witness :
    extract_task_details tomorrowOnlyParse isoStub sampleTranscript =
      [("task", "Meeting with Alice"), ("with_whom", "Alice"),
       ("date_time", "1970-01-02T00:00:00-05:00")] :=
  (((C4_extraction_spec tomorrowOnlyParse isoStub sampleTranscript).1
      "Alice".data "3pm tomorrow".data (by decide)).1 sampleDT
      (by decide)).trans (by decide)

/-- C5: whenever `ask_follow_up_questions` returns normally (which the
claim's hypothesis — mandatory answers eventually non-empty — is there
to ensure), it never overwrites a key that was already present with a
non-empty value, never removes a key, and returns a mapping in which
both mandatory fields `task` and `date_time` hold non-empty values. -/
theorem C5_completer_invariants (td : TaskDetails) (responses : List String)
    (td2 : TaskDetails) (rest : List String)
    (h : ask_follow_up_questions td responses = some (td2, rest)) :
    (∀ k v, dlookup td k = some v → v ≠ "" → dlookup td2 k = some v) ∧
    (∀ k, (dlookup td k).isSome → (dlookup td2 k).isSome) ∧
    (∃ v, dlookup td2 "task" = some v ∧ v ≠ "") ∧
    (∃ v, dlookup td2 "date_time" = some v ∧ v ≠ "") := by
  refine ⟨?_, ?_, ?_, ?_⟩
  · intro k v hk hv
    exact processFields_preserve requiredFields td responses td2 rest h k v
      hk hv
  · intro k hk
    exact processFields_isSome requiredFields td responses td2 rest h k hk
  · exact processFields_mandatory requiredFields td responses td2 rest "task"
      (by decide) h
  · exact processFields_mandatory requiredFields td responses td2 rest
      "date_time" (by decide) h

/-- Witness for C5: a partial mapping with an empty mandatory `task`, a
pre-set `with_whom`, an empty first answer forcing the re-prompt loop,
and blank answers to every optional field. -/
theorem C5_witness :
    (∃ v, dlookup [("task", "T"), ("with_whom", "Bob"), ("date_time", "D")]
        "task" = some v ∧ v ≠ "") ∧
    (∃ v, dlookup [("task", "T"), ("with_whom", "Bob"), ("date_time", "D")]
        "date_time" = some v ∧ v ≠ "") :=
  ⟨(C5_completer_invariants [("task", ""), ("with_whom", "Bob")]
      ["", "T", "D", "", "", "", "", "", "", ""]
      [("task", "T"), ("with_whom", "Bob"), ("date_time", "D")] []
      (by decide)).2.2.1,
   (C5_completer_invariants [("task", ""), ("with_whom", "Bob")]
      ["", "T", "D", "", "", "", "", "", "", ""]
      [("task", "T"), ("with_whom", "Bob"), ("date_time", "D")] []
      (by decide)).2.2.2⟩

/-- C8: whenever extraction returns the empty mapping, `main` halts right
after the Extracting step: the completer is never invoked, no event is
built or submitted, and nothing is listed. -/
theorem C8_empty_extraction_halts (text : String)
    (parse : String → Option AwareDT) (iso : AwareDT → String)
    (responses : List String) (insertOk : Bool)
    (h : extract_task_details parse iso text = []) :
    mainRun (some text) parse iso responses insertOk =
      ([Step.transcribing, Step.extracting], none) := by
  simp [mainRun, h]

/-- Witness for C8 on the spec's unrecognizable transcript. -/
theorem C8_witness :
    mainRun (some "Remind me to buy milk") alwaysParse isoStub [] true =
      ([Step.transcribing, Step.extracting], none) :=
  C8_empty_extraction_halts "Remind me to buy milk" alwaysParse isoStub []
    true (by decide)

/-- C2 counterexample: a run in which the Building step fails (the
build-time date parse raises inside `create_calendar_event`) and yet the
Listing step still executes — `main` calls `display_upcoming_events`
unconditionally after `create_calendar_event` returns, so the claim that
the run halts before Listing is false. -/
theorem C2_counterexample :
    (mainRun (some sampleTranscript) tomorrowOnlyParse isoStub sevenBlanks
        true).2 = some CreateResult.parseError ∧
    Step.listing ∈ (mainRun (some sampleTranscript) tomorrowOnlyParse
        isoStub sevenBlanks true).1 := by
  decide

/-- C2 (amended): when the Building or Submitting step fails (a
build-time `TimeParseError` or a calendar-write boundary error), the
failure is caught inside `create_calendar_event` and nothing is
submitted, but the run does not halt: the Listing step
(`display_upcoming_events`) still executes. -/
theorem C2_failure_caught_listing_runs (transcript : Option String)
    (parse : String → Option AwareDT) (iso : AwareDT → String)
    (responses : List String) (insertOk : Bool) (r : CreateResult)
    (h : (mainRun transcript parse iso responses insertOk).2 = some r)
    (hf : r = CreateResult.parseError ∨
      ∃ a b e, r = CreateResult.insertError a b e) :
    r.submitted = false ∧
    Step.listing ∈ (mainRun transcript parse iso responses insertOk).1 := by
  constructor
  · rcases hf with h1 | ⟨a, b, e, h1⟩ <;> rw [h1] <;> rfl
  · rw [mainRun_snd_some transcript parse iso responses insertOk r h]
    simp

/-- Witness for the amended C2 on the concrete failing-build run. -/
theorem C2_witness :
    CreateResult.parseError.submitted = false ∧
    Step.listing ∈ (mainRun (some sampleTranscript) tomorrowOnlyParse
        isoStub sevenBlanks true).1 :=
  C2_failure_caught_listing_runs (some sampleTranscript) tomorrowOnlyParse
    isoStub sevenBlanks true CreateResult.parseError (by decide)
    (Or.inl rfl)
